import Mathlib

/-!
Shallow embedding of the azubiheft scraping client (Go package `azubiheft`)
and the service layer around it (`azubiheftserver`).  Pure computations
(string handling, HTML-scan results, form assembly) are translated directly;
the network is modelled by an explicit environment (`Env`) that supplies the
content of the pages the client fetches, and every operation additionally
returns the list of network calls it issued.  Transport failures and non-200
responses are outside the embedding: the environment always delivers its page.
-/

/-- Model of Go `unicode.IsSpace` restricted to the Latin-1 white-space set
(the characters relevant to the scraped pages). -/
def goIsSpace (c : Char) : Bool :=
  c.toNat = 32 || c.toNat = 9 || c.toNat = 10 || c.toNat = 11 ||
  c.toNat = 12 || c.toNat = 13 || c.toNat = 133 || c.toNat = 160

/-- Model of Go `strings.TrimSpace`. -/
def trimSpace (s : String) : String :=
  String.mk (((s.toList.dropWhile goIsSpace).reverse.dropWhile goIsSpace).reverse)

/-- List-level check that `p` occurs at the head of `l` (used to model
leftmost substring search). -/
def startsWithList : List Char → List Char → Bool
  | [], _ => true
  | _ :: _, [] => false
  | p :: ps, c :: cs => p = c && startsWithList ps cs

/-- Numeric value of a list of decimal digits. -/
def digitsToNat (ds : List Char) : Nat :=
  ds.foldl (fun a c => a * 10 + (c.toNat - 48)) 0

/-- Parse a non-empty all-digit list, as the digit part of `strconv.Atoi`. -/
def parseDigits (ds : List Char) : Option Int :=
  if ds.isEmpty then none
  else if ds.all Char.isDigit then some (digitsToNat ds : Nat)
  else none

/-- Model of Go `strconv.Atoi` (sign handling as in the Go source; overflow is
not modelled, the result is an unbounded integer). -/
def atoi (s : String) : Option Int :=
  match s.toList with
  | [] => none
  | '+' :: ds => parseDigits ds
  | '-' :: ds => (parseDigits ds).map (fun v => -v)
  | ds => parseDigits ds

/-- Longest run of decimal digits at the head of the list (the greedy digit
group of the week-identifier pattern). -/
def takeDigits : List Char → List Char
  | [] => []
  | c :: cs => if c.isDigit then c :: takeDigits cs else []

/-- Auxiliary scanner for Go `strings.ReplaceAll` with a non-empty pattern
`p :: ps`: leftmost, non-overlapping replacement. -/
def replaceAllAux (p : Char) (ps rep : List Char) : List Char → List Char
  | [] => []
  | c :: cs =>
    if startsWithList (p :: ps) (c :: cs) then
      rep ++ replaceAllAux p ps rep (List.drop ps.length cs)
    else
      c :: replaceAllAux p ps rep cs
termination_by l => l.length
decreasing_by
  all_goals simp [List.length_drop]
  all_goals omega

/-- Model of Go `strings.ReplaceAll`. -/
def goReplaceAll (s old new : String) : String :=
  match old.toList with
  | [] => String.mk (new.toList ++ s.toList.flatMap (fun c => c :: new.toList))
  | p :: ps => String.mk (replaceAllAux p ps new.toList s.toList)

/-- UTF-8 encoding of one character, as the byte sequence Go iterates over
when percent-encoding.  The masks are identities on every valid scalar value
and make the 256-bound of each byte syntactic. -/
def utf8Bytes (c : Char) : List Nat :=
  let n := c.toNat
  if n < 128 then [n]
  else if n < 2048 then [192 + (n / 64) % 32, 128 + n % 64]
  else if n < 65536 then [224 + (n / 4096) % 16, 128 + (n / 64) % 64, 128 + n % 64]
  else [240 + (n / 262144) % 8, 128 + (n / 4096) % 64, 128 + (n / 64) % 64, 128 + n % 64]

/-- UTF-8 bytes of a character list. -/
def strBytes (l : List Char) : List Nat :=
  l.flatMap utf8Bytes

/-- Bytes Go `url.QueryEscape` leaves unescaped: alphanumerics and `-` `.` `_` `~`. -/
def unreservedByte (b : Nat) : Bool :=
  (48 ≤ b && b ≤ 57) || (65 ≤ b && b ≤ 90) || (97 ≤ b && b ≤ 122) ||
  b = 45 || b = 46 || b = 95 || b = 126

/-- Upper-case hexadecimal digit table used by Go `url.QueryEscape`. -/
def hexOf (n : Nat) : Char :=
  ['0', '1', '2', '3', '4', '5', '6', '7', '8', '9',
   'A', 'B', 'C', 'D', 'E', 'F'].getD n '0'

/-- Encoding of one byte under Go `url.QueryEscape`: unreserved bytes pass
through, a space becomes `+`, everything else becomes `%HH`. -/
def escByte (b : Nat) : List Char :=
  if unreservedByte b then [Char.ofNat b]
  else if b = 32 then ['+']
  else ['%', hexOf (b / 16), hexOf (b % 16)]

/-- Model of Go `url.QueryEscape`. -/
def queryEscape (s : String) : String :=
  String.mk ((strBytes s.toList).flatMap escByte)

/-- Specification-side byte encoder: like `escByte` but a space becomes `%20`
directly, so a literal `+` (byte 43, not unreserved) is encoded `%2B`,
distinct from any space. -/
def escByteSpec (b : Nat) : List Char :=
  if unreservedByte b then [Char.ofNat b]
  else if b = 32 then ['%', '2', '0']
  else ['%', hexOf (b / 16), hexOf (b % 16)]

/-- One row of a day report, Go struct `ReportEntry`. -/
structure ReportEntry where
  Seq : String
  Type' : String
  Duration : String
  Text : String
deriving DecidableEq

/-- Scan result of one `div.mo.NBox` week tile on the overview page:
the `onclick` attribute when present, the combined text of the `div.sKW`
selection when non-empty, and the texts of the `div` descendants of the
`div.KW` selection when that selection is non-empty. -/
structure WeekTile where
  onclick : Option String
  sKW : Option String
  kwDivs : Option (List String)
deriving DecidableEq

/-- Scan result of one `div.d0.mo` day-entry container on the day page:
the `data-seq` attribute, the text of `div.row2.d4` (duration), the text of
`div.row1.d3` (type label), and the inner HTML and plain text of
`div.row7.d5` (body). -/
structure DayEntryDiv where
  dataSeq : Option String
  row2d4Text : String
  row1d3Text : String
  row7d5Html : String
  row7d5Text : String
deriving DecidableEq

/-- Error values of the client, one constructor per distinct `fmt.Errorf`
site the claims mention: `notFound` is the "no report found for week %d/%d"
failure of `GetReportWeekID`, `invalidEntryNumber` the
"invalid entry number: %d" failure of `DeleteReport`. -/
inductive ClientError where
  | notFound (week year : Int)
  | invalidEntryNumber (n : Int)
deriving DecidableEq

/-- Query-string parameters of the AJAX endpoint
`/Azubi/XMLHttpRequest.ashx?Datum=..&BrNr=..&BrSt=1&BrVorh=Yes&T=..`. -/
structure AjaxURL where
  Datum : String
  BrNr : String
  BrSt : String
  BrVorh : String
  T : Int
deriving DecidableEq

/-- Form fields of an AJAX POST body (`url.Values` keys in the Go source). -/
structure AjaxForm where
  disablePaste : String
  Seq : String
  Art_ID : String
  Abt_ID : String
  Dauer : String
  Inhalt : String
  jsVer : String
deriving DecidableEq

/-- One network call issued by a client operation. -/
inductive NetCall where
  | getOverview
  | getDayReport (dateStr : String)
  | postAjax (u : AjaxURL) (f : AjaxForm)
deriving DecidableEq

/-- Input date, reduced to what the Go code reads from `time.Time`:
the ISO week pair `date.ISOWeek()` and the string `date.Format("20060102")`. -/
structure Date where
  isoYear : Int
  isoWeek : Int
  dateStr : String
deriving DecidableEq

/-- Remote environment: content of the overview page (its week tiles), the
day page for each date string (its day-entry containers), and the clock value
`time.Now().Unix()`. -/
structure Env where
  overview : List WeekTile
  dayPage : String → List DayEntryDiv
  timestamp : Int

/-- Marker searched in a week tile's `onclick` attribute. -/
def nachweisMarker : List Char := "NachweisNr=".toList

/-- Leftmost match of the pattern `NachweisNr=(\d+)`: the first position at
which the marker occurs immediately followed by a digit yields the maximal
digit run after the marker. -/
def findNachweisNr : List Char → Option (List Char)
  | [] => none
  | c :: cs =>
    let rest := List.drop nachweisMarker.length (c :: cs)
    if startsWithList nachweisMarker (c :: cs) &&
       (match rest with | d :: _ => d.isDigit | [] => false) then
      some (takeDigits rest)
    else
      findNachweisNr cs

/-- Week identifier embedded in an `onclick` attribute, when present. -/
def extractNachweisNr (s : String) : Option String :=
  (findNachweisNr s.toList).map String.mk

/-- One iteration of the `doc.Find("div.mo.NBox").Each` callback of
`GetReportWeekID`: `some id` when the tile carries the wanted calendar week
and year and an extractable identifier, `none` when the callback skips the
tile or finds no identifier in its `onclick`. -/
def tileMatch (week year : Int) (t : WeekTile) : Option String :=
  match t.onclick with
  | none => none
  | some onclick =>
    match t.sKW with
    | none => none
    | some kwText =>
      match t.kwDivs with
      | none => none
      | some yearDivs =>
        if yearDivs.length < 3 then none
        else
          match atoi (trimSpace kwText) with
          | none => none
          | some kw =>
            match yearDivs.get? 2 with
            | none => none
            | some yearText =>
              match atoi (trimSpace yearText) with
              | none => none
              | some kwYear =>
                if kw = week && kwYear = year then extractNachweisNr onclick
                else none

/-- Scan of `GetReportWeekID` over the overview page: `weekID` starts empty
and is overwritten by every tile the callback matches; an empty final value
is the "no report found for week %d/%d" failure. -/
def getReportWeekIDCore (tiles : List WeekTile) (year week : Int) :
    Except ClientError String :=
  let weekID := tiles.foldl
    (fun acc t => match tileMatch week year t with
      | some m => m
      | none => acc) ""
  if weekID = "" then Except.error (ClientError.notFound week year)
  else Except.ok weekID

/-- Go `Session.GetReportWeekID`: one GET of the overview page, then the scan. -/
def GetReportWeekID (env : Env) (date : Date) :
    Except ClientError String × List NetCall :=
  (getReportWeekIDCore env.overview date.isoYear date.isoWeek,
   [NetCall.getOverview])

/-- Model of Go `strings.TrimPrefix s "Art: "` (list-level so that it
computes definitionally; dropping 5 characters equals dropping the 5 bytes of
the ASCII marker). -/
def trimArtLabel (s : String) : String :=
  if startsWithList "Art: ".toList s.toList then String.mk (s.toList.drop 5) else s

/-- One iteration of the `doc.Find("div.d0.mo").Each` callback of
`GetReport`: `none` when the container's trimmed duration is `00:00`
(the callback returns early), otherwise the extracted entry. -/
def extractEntry (includeFormatting : Bool) (e : DayEntryDiv) :
    Option ReportEntry :=
  let seq := e.dataSeq.getD ""
  let duration := trimSpace e.row2d4Text
  if duration = "00:00" then none
  else
    let activityType := trimArtLabel (trimSpace e.row1d3Text)
    let text :=
      if includeFormatting then
        goReplaceAll (goReplaceAll e.row7d5Html "<br/>" "\n") "<br>" "\n"
      else
        trimSpace e.row7d5Text
    some { Seq := seq, Type' := activityType, Duration := duration, Text := text }

/-- Entry extraction of `GetReport` over the day page's containers. -/
def extractEntries (divs : List DayEntryDiv) (includeFormatting : Bool) :
    List ReportEntry :=
  divs.filterMap (extractEntry includeFormatting)

/-- Go `Session.GetReport`: one GET of the day page, then extraction.  The
environment always delivers the page, so the transport/parse failure branches
of the Go function do not arise here. -/
def GetReport (env : Env) (date : Date) (includeFormatting : Bool) :
    Except ClientError (List ReportEntry) × List NetCall :=
  (Except.ok (extractEntries (env.dayPage date.dateStr) includeFormatting),
   [NetCall.getDayReport date.dateStr])

/-- Split at every occurrence of a separator character, as Go
`strings.Split` with a one-character separator. -/
def splitOnChar (sep : Char) : List Char → List (List Char)
  | [] => [[]]
  | c :: cs =>
    if c = sep then [] :: splitOnChar sep cs
    else
      match splitOnChar sep cs with
      | [] => [[c]]
      | g :: gs => (c :: g) :: gs

/-- Message body assembly of `WriteReport`: split on newlines, wrap each line
in a `div` element, join. -/
def formattedMessage (message : String) : String :=
  String.join ((splitOnChar '\n' message.toList).map
    (fun line => "<div>" ++ String.mk line ++ "</div>"))

/-- Payload encoding of `WriteReport`: `url.QueryEscape`, then every `+`
replaced by `%20`. -/
def encodeInhalt (message : String) : String :=
  goReplaceAll (queryEscape (formattedMessage message)) "+" "%20"

/-- Query string of the AJAX endpoint as assembled by `WriteReport` and
`DeleteReport`. -/
def ajaxURL (dateStr weekID : String) (timestamp : Int) : AjaxURL :=
  { Datum := dateStr, BrNr := weekID, BrSt := "1", BrVorh := "Yes", T := timestamp }

/-- Form body of the `WriteReport` POST. -/
def writeForm (message timeSpent : String) (entryType : Int) : AjaxForm :=
  { disablePaste := "0", Seq := "0", Art_ID := toString entryType, Abt_ID := "0",
    Dauer := timeSpent, Inhalt := encodeInhalt message, jsVer := "12" }

/-- Go `Session.WriteReport`: immediate success without any call when the
duration is exactly `00:00`; otherwise week resolution followed by one AJAX
POST (the environment answers every POST with status 200, so the non-200
failure branch does not arise). -/
def WriteReport (env : Env) (date : Date) (message timeSpent : String)
    (entryType : Int) : Except ClientError Unit × List NetCall :=
  if timeSpent = "00:00" then (Except.ok (), [])
  else
    match getReportWeekIDCore env.overview date.isoYear date.isoWeek with
    | Except.error e => (Except.error e, [NetCall.getOverview])
    | Except.ok weekID =>
      (Except.ok (),
       [NetCall.getOverview,
        NetCall.postAjax (ajaxURL date.dateStr weekID env.timestamp)
          (writeForm message timeSpent entryType)])

/-- Target selection of `DeleteReport`: all entries when `entryNumber` is
nil, otherwise the single 1-based entry after the range check. -/
def entriesToDelete (reports : List ReportEntry) (entryNumber : Option Int) :
    Except ClientError (List ReportEntry) :=
  match entryNumber with
  | none => Except.ok reports
  | some n =>
    if n < 1 || n > (reports.length : Int) then
      Except.error (ClientError.invalidEntryNumber n)
    else
      Except.ok ((reports.get? (n - 1).toNat).toList)

/-- Form body of one deletion POST: negated sequence number, the entry's own
duration and text echoed back. -/
def deleteForm (entry : ReportEntry) : AjaxForm :=
  { disablePaste := "0", Seq := "-" ++ entry.Seq, Art_ID := "0", Abt_ID := "0",
    Dauer := entry.Duration, Inhalt := entry.Text, jsVer := "12" }

/-- Go `Session.DeleteReport`: fetch the day's entries in plain mode, succeed
trivially when there are none, resolve the week identifier once, select the
targets, then one deletion POST per target (every POST answered 200 by the
environment). -/
def DeleteReport (env : Env) (date : Date) (entryNumber : Option Int) :
    Except ClientError Unit × List NetCall :=
  let reports := extractEntries (env.dayPage date.dateStr) false
  if reports.isEmpty then (Except.ok (), [NetCall.getDayReport date.dateStr])
  else
    match getReportWeekIDCore env.overview date.isoYear date.isoWeek with
    | Except.error e =>
      (Except.error e, [NetCall.getDayReport date.dateStr, NetCall.getOverview])
    | Except.ok weekID =>
      match entriesToDelete reports entryNumber with
      | Except.error e =>
        (Except.error e, [NetCall.getDayReport date.dateStr, NetCall.getOverview])
      | Except.ok targets =>
        (Except.ok (),
         [NetCall.getDayReport date.dateStr, NetCall.getOverview] ++
           targets.map (fun entry =>
             NetCall.postAjax (ajaxURL date.dateStr weekID env.timestamp)
               (deleteForm entry)))

/-- Transport configuration of one `http.Client` as set by `NewSession`:
whether a fresh private cookie jar was installed, and the `CheckRedirect`
callback, which receives the chain of requests already followed and returns
`none` for "no error". -/
structure SessionConfig where
  freshCookieJar : Bool
  checkRedirect : List Unit → Option Unit

/-- Go `NewSession`: a fresh cookie jar and a `CheckRedirect` callback that
returns nil unconditionally. -/
def NewSession : SessionConfig :=
  { freshCookieJar := true, checkRedirect := fun _ => none }

/-- Go `net/http` semantics: a redirect response is transparently followed
(consumed without surfacing it to the caller) exactly when `CheckRedirect`
returns no error. -/
def followsRedirectSilently (cfg : SessionConfig) (via : List Unit) : Bool :=
  (cfg.checkRedirect via).isNone

/-- Session registry of `AzubiheftService`: the keys present in the session
map and the identifier of the auto-created default session (empty when no
auto-login happened). -/
structure ServiceState where
  sessions : List String
  defaultSessionID : String

/-- Service-layer errors, one constructor per distinct error site of the
service handlers that the claims mention. -/
inductive SvcError where
  | sessionIDRequired
  | dateRequired
  | invalidDateFormat
  | messageRequired
  | timeSpentRequired
  | entryTypeRequired
  | invalidSessionHint
  | invalidSession
  | opFailed (e : ClientError)
deriving DecidableEq

/-- Go `AzubiheftService.getSession`: an empty identifier is rewritten to the
default one when a default exists, then the map is consulted; the successful
result is the resolved identifier (standing for the session pointer). -/
def getSession (st : ServiceState) (sessionID : String) :
    Except SvcError String :=
  let sessionID :=
    if sessionID = "" && st.defaultSessionID ≠ "" then st.defaultSessionID
    else sessionID
  if st.sessions.contains sessionID then Except.ok sessionID
  else if st.defaultSessionID ≠ "" then Except.error SvcError.invalidSessionHint
  else Except.error SvcError.invalidSession

/-- Arguments of the `azubiheft_write_report` tool call as the handler reads
them from `map[string]interface{}`: each field is `some v` exactly when the
key is present with the asserted type (`entry_type` arrives as a float64 and
is truncated to int; only that integer is modelled). -/
structure WriteReportArgs where
  session_id : Option String
  date : Option String
  message : Option String
  time_spent : Option String
  entry_type : Option Int

/-- Go `AzubiheftService.WriteReport`: the handler's type assertions in
source order, then date parsing (`time.Parse` supplied by `parseDate`),
session resolution, and the client call. -/
def serviceWriteReport (st : ServiceState) (env : Env)
    (parseDate : String → Option Date) (args : WriteReportArgs) :
    Except SvcError String × List NetCall :=
  match args.session_id with
  | none => (Except.error SvcError.sessionIDRequired, [])
  | some sessionID =>
    match args.date with
    | none => (Except.error SvcError.dateRequired, [])
    | some dateStr =>
      match parseDate dateStr with
      | none => (Except.error SvcError.invalidDateFormat, [])
      | some date =>
        match args.message with
        | none => (Except.error SvcError.messageRequired, [])
        | some message =>
          match args.time_spent with
          | none => (Except.error SvcError.timeSpentRequired, [])
          | some timeSpent =>
            match args.entry_type with
            | none => (Except.error SvcError.entryTypeRequired, [])
            | some entryType =>
              match getSession st sessionID with
              | Except.error e => (Except.error e, [])
              | Except.ok _ =>
                match WriteReport env date message timeSpent entryType with
                | (Except.ok _, tr) =>
                  (Except.ok ("Report for " ++ dateStr ++ " written successfully"), tr)
                | (Except.error e, tr) => (Except.error (SvcError.opFailed e), tr)

def c1Tile1 : WeekTile :=
  { onclick := some "VorlageNachweis('Ausbildungsnachweise_1.aspx?NachweisNr=101');"
    sKW := some " 5 "
    kwDivs := some ["KW", "x", " 2024 "] }

def c1Tile2 : WeekTile :=
  { onclick := some "VorlageNachweis('Ausbildungsnachweise_1.aspx?NachweisNr=102');"
    sKW := some "5"
    kwDivs := some ["KW", "x", "2024"] }

def c1Env : Env := { overview := [c1Tile1, c1Tile2], dayPage := fun _ => [], timestamp := 0 }

def c1Date : Date := { isoYear := 2024, isoWeek := 5, dateStr := "20240129" }

def c6State : ServiceState := { sessions := ["default"], defaultSessionID := "default" }

def c6Date : Date := { isoYear := 2025, isoWeek := 3, dateStr := "20250115" }

def c6Env : Env := { overview := [], dayPage := fun _ => [], timestamp := 0 }

def c6Args : WriteReportArgs :=
  { session_id := none, date := some "2025-01-15", message := some "hello",
    time_spent := some "01:00", entry_type := some 1 }

def c3Env : Env :=
  { overview := []
    dayPage := fun _ =>
      [{ dataSeq := some "2", row2d4Text := "01:30", row1d3Text := "Art: Schule",
         row7d5Html := "a", row7d5Text := "a" }]
    timestamp := 0 }

def c4Tile : WeekTile :=
  { onclick := some "VorlageNachweis('Ausbildungsnachweise_1.aspx?NachweisNr=7');"
    sKW := some "5"
    kwDivs := some ["KW", "x", "2024"] }

def c4Div : DayEntryDiv :=
  { dataSeq := some "1", row2d4Text := "01:00", row1d3Text := "Art: Betrieb",
    row7d5Html := "work", row7d5Text := "work" }

def c4Date : Date := { isoYear := 2024, isoWeek := 5, dateStr := "20240129" }

def c4Env : Env :=
  { overview := [c4Tile], dayPage := fun _ => [c4Div], timestamp := 9 }

def c4xEnv : Env :=
  { overview := [], dayPage := fun _ => [c4Div], timestamp := 9 }

/-- Test for the overview-page GET (the week-identifier lookup's network call). -/
def isOverviewCall : NetCall → Bool
  | NetCall.getOverview => true
  | _ => false

/-- Test for a deletion/write POST. -/
def isPostCall : NetCall → Bool
  | NetCall.postAjax _ _ => true
  | _ => false

def c7Div1 : DayEntryDiv :=
  { dataSeq := some "1", row2d4Text := "01:00", row1d3Text := "Art: Betrieb",
    row7d5Html := "a", row7d5Text := "a" }

def c7Div2 : DayEntryDiv :=
  { dataSeq := some "2", row2d4Text := "02:00", row1d3Text := "Art: Schule",
    row7d5Html := "b", row7d5Text := "b" }

def c7Env : Env :=
  { overview := [c4Tile], dayPage := fun _ => [c7Div1, c7Div2], timestamp := 9 }

def c9Form : AjaxForm := writeForm "a b" "01:00" 2

theorem getD_getLast?_cons (x : String) (xs : List String) (a : String) :
    ((x :: xs).getLast?).getD a = (xs.getLast?).getD x := by
  cases xs with
  | nil => rfl
  | cons y ys =>
    rw [List.getLast?_cons_cons]
    obtain ⟨z, hz⟩ : ∃ z, (y :: ys).getLast? = some z :=
      ⟨_, List.getLast?_eq_getLast_of_ne_nil (List.cons_ne_nil y ys)⟩
    rw [hz]
    rfl

theorem foldl_overwrite (f : WeekTile → Option String) (l : List WeekTile)
    (a : String) :
    l.foldl (fun acc t => match f t with | some m => m | none => acc) a =
      ((l.filterMap f).getLast?).getD a := by
  induction l generalizing a with
  | nil => rfl
  | cons t l ih =>
    rw [List.foldl_cons, List.filterMap_cons]
    cases h : f t with
    | none => simpa [h] using ih a
    | some m =>
      simp only [h]
      rw [ih m, getD_getLast?_cons]

theorem mem_of_getLast?_eq (l : List String) (a : String)
    (h : l.getLast? = some a) : a ∈ l := by
  have h' : a ∈ l.getLast? := by rw [h]; rfl
  obtain ⟨hne, rfl⟩ := List.mem_getLast?_eq_getLast h'
  exact List.getLast_mem hne

theorem findNachweisNr_ne_nil (l ds : List Char)
    (h : findNachweisNr l = some ds) : ds ≠ [] := by
  induction l with
  | nil => simp [findNachweisNr] at h
  | cons c cs ih =>
    rw [findNachweisNr] at h
    split at h
    · rename_i hc
      obtain ⟨-, hrest⟩ := Bool.and_eq_true_iff.mp hc
      have hds := Option.some.inj h
      subst hds
      cases hdrop : List.drop nachweisMarker.length (c :: cs) with
      | nil => simp [hdrop] at hrest
      | cons d ds2 =>
        simp only [hdrop] at hrest ⊢
        simp [takeDigits, hrest]
    · exact ih h

theorem extractNachweisNr_ne_empty (s : String) (id : String)
    (h : extractNachweisNr s = some id) : id ≠ "" := by
  unfold extractNachweisNr at h
  obtain ⟨ds, hds, rfl⟩ := Option.map_eq_some'.mp h
  intro hc
  exact findNachweisNr_ne_nil _ _ hds (by simpa using congrArg String.data hc)

theorem tileMatch_ne_empty (w y : Int) (t : WeekTile) (id : String)
    (h : tileMatch w y t = some id) : id ≠ "" := by
  unfold tileMatch at h
  repeat' split at h
  all_goals first
    | exact absurd h (by simp)
    | exact extractNachweisNr_ne_empty _ _ h

/-- C1 (amended): `GetReportWeekID` returns the identifier of the LAST
overview tile that matches the ISO week and year of the date and carries an
extractable identifier, and fails with the not-found error when no matching
tile yields an identifier. -/
theorem getReportWeekID_returns_last_match (env : Env) (date : Date) :
    (GetReportWeekID env date).1 =
      match (env.overview.filterMap (tileMatch date.isoWeek date.isoYear)).getLast? with
      | some id => Except.ok id
      | none => Except.error (ClientError.notFound date.isoWeek date.isoYear) := by
  show getReportWeekIDCore env.overview date.isoYear date.isoWeek = _
  unfold getReportWeekIDCore
  rw [foldl_overwrite]
  cases hl : (env.overview.filterMap (tileMatch date.isoWeek date.isoYear)).getLast? with
  | none => simp
  | some id =>
    have hne : id ≠ "" := by
      obtain ⟨t, -, ht⟩ := List.mem_filterMap.mp (mem_of_getLast?_eq _ _ hl)
      exact tileMatch_ne_empty _ _ _ _ ht
    simp [hne]

/-- C1 counterexample: with two tiles both matching week 5 of 2024, the first
carrying identifier `101` and the second `102`, `GetReportWeekID` returns
`102`, not the first tile's `101`. -/
theorem getReportWeekID_first_match_cex :
    (GetReportWeekID c1Env c1Date).1 = Except.ok "102" ∧
    (c1Env.overview.filterMap (tileMatch c1Date.isoWeek c1Date.isoYear)).head? =
      some "101" ∧
    ("102" : String) ≠ "101" :=
  ⟨rfl, rfl, by decide⟩

/-- C2: with the duration argument exactly `00:00`, `WriteReport` returns
success and issues no network call at all. -/
theorem writeReport_zero_duration_noop (env : Env) (date : Date)
    (message : String) (entryType : Int) :
    WriteReport env date message "00:00" entryType = (Except.ok (), []) := by
  simp [WriteReport]

/-- C5 counterexample: the redirect policy installed by `NewSession` returns
nil unconditionally, so (by the `net/http` contract) a redirect response IS
silently followed — here already on the first redirect of a chain. -/
theorem newSession_redirect_cex :
    followsRedirectSilently NewSession [] = true := rfl

/-- C5 (amended): every session created by `NewSession` has a fresh private
cookie store, and its `CheckRedirect` policy approves every redirect, so
redirect responses are transparently consumed. -/
theorem newSession_config (via : List Unit) :
    NewSession.freshCookieJar = true ∧
    followsRedirectSilently NewSession via = true :=
  ⟨rfl, rfl⟩

/-- C6: the `WriteReport` service handler invoked with the session handle
omitted fails with the missing-argument error even though a pre-authenticated
default session exists, instead of implicitly using that default session as
the service's own startup log promises. -/
theorem serviceWriteReport_requires_session_id :
    serviceWriteReport c6State c6Env (fun _ => some c6Date) c6Args =
      (Except.error SvcError.sessionIDRequired, []) ∧
    c6State.defaultSessionID ≠ "" ∧
    getSession c6State "" = Except.ok "default" :=
  ⟨rfl, by decide, rfl⟩

/-- C3: the entry list returned by `GetReport` contains no entry whose
duration is `00:00`, in either formatting mode: such day-entry containers are
skipped during extraction. -/
theorem getReport_excludes_zero_duration (env : Env) (date : Date)
    (includeFormatting : Bool) (entries : List ReportEntry)
    (hok : (GetReport env date includeFormatting).1 = Except.ok entries) :
    ∀ r ∈ entries, r.Duration ≠ "00:00" := by
  intro r hr
  have hentries : entries = extractEntries (env.dayPage date.dateStr) includeFormatting := by
    have := hok
    unfold GetReport at this
    exact (Except.ok.inj this).symm
  subst hentries
  obtain ⟨e, -, he⟩ := List.mem_filterMap.mp hr
  simp only [extractEntry] at he
  split at he
  · exact absurd he (by simp)
  · rename_i hdur
    obtain rfl := Option.some.inj he
    exact hdur

/-- C3 witness. -/
theorem getReport_excludes_zero_duration_witness :
    ({ Seq := "2", Type' := "Schule", Duration := "01:30", Text := "a" } : ReportEntry).Duration ≠ "00:00" :=
  getReport_excludes_zero_duration c3Env c6Date false
    [{ Seq := "2", Type' := "Schule", Duration := "01:30", Text := "a" }] (by rfl) _ (by simp)

theorem getReportWeekIDCore_error (tiles : List WeekTile) (year week : Int)
    (e : ClientError)
    (h : getReportWeekIDCore tiles year week = Except.error e) :
    e = ClientError.notFound week year := by
  simp only [getReportWeekIDCore] at h
  split at h
  · exact (Except.error.inj h).symm
  · exact absurd h (by simp)

/-- C4 (amended): with a non-empty entry list and an out-of-range entry
number, `DeleteReport` issues no deletion POST, and fails with the
validation error provided the week-identifier lookup succeeds. -/
theorem deleteReport_out_of_range_validation (env : Env) (date : Date) (n : Int)
    (hne : extractEntries (env.dayPage date.dateStr) false ≠ [])
    (hn : n < 1 ∨ n > ((extractEntries (env.dayPage date.dateStr) false).length : Int)) :
    (∀ u f, NetCall.postAjax u f ∉ (DeleteReport env date (some n)).2) ∧
    (∀ w, getReportWeekIDCore env.overview date.isoYear date.isoWeek = Except.ok w →
      (DeleteReport env date (some n)).1 =
        Except.error (ClientError.invalidEntryNumber n)) := by
  have hemp : (extractEntries (env.dayPage date.dateStr) false).isEmpty = false := by
    cases hrep : extractEntries (env.dayPage date.dateStr) false with
    | nil => exact absurd hrep hne
    | cons a l => rfl
  have hcond : (decide (n < 1) ||
      decide (n > ((extractEntries (env.dayPage date.dateStr) false).length : Int))) = true := by
    rcases hn with h | h <;> simp [h]
  simp only [DeleteReport]
  simp only [hemp, Bool.false_eq_true, if_false]
  cases hw : getReportWeekIDCore env.overview date.isoYear date.isoWeek with
  | error e =>
    refine ⟨by simp, ?_⟩
    intro w hww
    exact absurd hww (by simp)
  | ok w =>
    have htarg : entriesToDelete (extractEntries (env.dayPage date.dateStr) false) (some n) =
        Except.error (ClientError.invalidEntryNumber n) := by
      simp [entriesToDelete, hcond]
    rw [htarg]
    exact ⟨by simp, fun _ _ => rfl⟩

/-- C4 witness. -/
theorem deleteReport_out_of_range_validation_witness :
    (DeleteReport c4Env c4Date (some 0)).1 =
      Except.error (ClientError.invalidEntryNumber 0) :=
  (deleteReport_out_of_range_validation c4Env c4Date 0
    (by decide) (Or.inl (by decide))).2 "7" (by rfl)

/-- C4 counterexample: on a date whose report page yields one entry but whose
week has no overview tile, `DeleteReport` with the out-of-range entry number
0 fails with the week-lookup not-found error, not with the validation
error the claim requires. -/
theorem deleteReport_out_of_range_cex :
    (DeleteReport c4xEnv c4Date (some 0)).1 =
      Except.error (ClientError.notFound 5 2024) ∧
    (extractEntries (c4xEnv.dayPage c4Date.dateStr) false).length = 1 ∧
    (Except.error (ClientError.notFound 5 2024) :
        Except ClientError Unit) ≠
      Except.error (ClientError.invalidEntryNumber 0) :=
  ⟨by rfl, by rfl, by simp⟩

/-- C10: in `DeleteReport` with a non-nil entry number and a non-empty entry
list, the week-identifier lookup precedes the range check: a failing lookup
makes the call fail with that lookup's error whatever the entry number, and
a validation error can only be observed when the entry list was non-empty,
the lookup succeeded, and the number was out of range. -/
theorem deleteReport_week_lookup_before_validation (env : Env) (date : Date)
    (n : Int) :
    (extractEntries (env.dayPage date.dateStr) false ≠ [] →
      ∀ e, getReportWeekIDCore env.overview date.isoYear date.isoWeek =
          Except.error e →
        (DeleteReport env date (some n)).1 = Except.error e) ∧
    (∀ m, (DeleteReport env date (some n)).1 =
        Except.error (ClientError.invalidEntryNumber m) →
      extractEntries (env.dayPage date.dateStr) false ≠ [] ∧
      (∃ w, getReportWeekIDCore env.overview date.isoYear date.isoWeek =
        Except.ok w) ∧
      m = n ∧
      (n < 1 ∨ n > ((extractEntries (env.dayPage date.dateStr) false).length : Int))) := by
  constructor
  · intro hne e he
    have hemp : (extractEntries (env.dayPage date.dateStr) false).isEmpty = false := by
      cases hrep : extractEntries (env.dayPage date.dateStr) false with
      | nil => exact absurd hrep hne
      | cons a l => rfl
    simp only [DeleteReport]
    simp only [hemp, Bool.false_eq_true, if_false, he]
  · intro m hm
    by_cases hemp : (extractEntries (env.dayPage date.dateStr) false).isEmpty = true
    · exfalso
      simp only [DeleteReport, hemp, if_true] at hm
      exact absurd hm (by simp)
    · have hemp' : (extractEntries (env.dayPage date.dateStr) false).isEmpty = false :=
        Bool.eq_false_iff.mpr hemp
      have hne : extractEntries (env.dayPage date.dateStr) false ≠ [] := by
        intro hc
        rw [hc] at hemp'
        exact absurd hemp' (by simp)
      refine ⟨hne, ?_⟩
      simp only [DeleteReport, hemp', Bool.false_eq_true, if_false] at hm
      cases hw : getReportWeekIDCore env.overview date.isoYear date.isoWeek with
      | error e =>
        rw [hw] at hm
        simp only [] at hm
        have := Except.error.inj hm
        have hnf := getReportWeekIDCore_error env.overview date.isoYear date.isoWeek e hw
        rw [hnf] at this
        exact absurd this (by simp)
      | ok w =>
        rw [hw] at hm
        refine ⟨⟨w, rfl⟩, ?_⟩
        by_cases hcond : ((n < 1 : Prop) ∨ (n > ((extractEntries (env.dayPage date.dateStr) false).length : Int) : Prop))
        · have hb : (decide (n < 1) ||
              decide (n > ((extractEntries (env.dayPage date.dateStr) false).length : Int))) = true := by
            rcases hcond with h | h <;> simp [h]
          simp only [entriesToDelete, hb, if_true] at hm
          exact ⟨(ClientError.invalidEntryNumber.inj (Except.error.inj hm)).symm, hcond⟩
        · exfalso
          have hb : (decide (n < 1) ||
              decide (n > ((extractEntries (env.dayPage date.dateStr) false).length : Int))) = false := by
            push_neg at hcond
            simp [hcond.1, hcond.2]
          simp only [entriesToDelete, hb, Bool.false_eq_true, if_false] at hm
          exact absurd hm (by simp)

/-- C10 witness. -/
theorem deleteReport_week_lookup_before_validation_witness :
    (DeleteReport c4xEnv c4Date (some 0)).1 =
      Except.error (ClientError.notFound 5 2024) :=
  (deleteReport_week_lookup_before_validation c4xEnv c4Date 0).1
    (by decide) (ClientError.notFound 5 2024) (by rfl)

/-- C7 counterexample: a `DeleteReport` call targeting two entries resolves
the week identifier once for the whole call (one overview GET against two
deletion POSTs), not once for each targeted entry as claimed. -/
theorem deleteReport_single_week_lookup_cex :
    (DeleteReport c7Env c4Date none).2.countP isOverviewCall = 1 ∧
    (DeleteReport c7Env c4Date none).2.countP isPostCall = 2 ∧
    (1 : Nat) ≠ 2 :=
  ⟨by rfl, by rfl, by decide⟩

/-- C7 (amended): the week identifier is resolved by a fresh overview lookup
on every `WriteReport` call with a non-`00:00` duration, and on every
`DeleteReport` call with a non-empty entry list exactly once, before the
first deletion POST, the same identifier being reused for every targeted
entry. -/
theorem weekID_fresh_lookup_per_call :
    (∀ env date message timeSpent entryType, timeSpent ≠ "00:00" →
      (WriteReport env date message timeSpent entryType).2.countP isOverviewCall = 1) ∧
    (∀ env date entryNumber,
      extractEntries (env.dayPage date.dateStr) false ≠ [] →
      ∃ posts, (DeleteReport env date entryNumber).2 =
          NetCall.getDayReport date.dateStr :: NetCall.getOverview :: posts ∧
        ∀ c ∈ posts, isPostCall c = true ∧
          ∃ w f, getReportWeekIDCore env.overview date.isoYear date.isoWeek =
              Except.ok w ∧
            c = NetCall.postAjax (ajaxURL date.dateStr w env.timestamp) f) := by
  constructor
  · intro env date message timeSpent entryType hts
    simp only [WriteReport]
    rw [if_neg hts]
    cases hw : getReportWeekIDCore env.overview date.isoYear date.isoWeek with
    | error e => rfl
    | ok w => rfl
  · intro env date entryNumber hne
    have hemp : (extractEntries (env.dayPage date.dateStr) false).isEmpty = false := by
      cases hrep : extractEntries (env.dayPage date.dateStr) false with
      | nil => exact absurd hrep hne
      | cons a l => rfl
    simp only [DeleteReport, hemp, Bool.false_eq_true, if_false]
    cases hw : getReportWeekIDCore env.overview date.isoYear date.isoWeek with
    | error e => exact ⟨[], rfl, by simp⟩
    | ok w =>
      cases ht : entriesToDelete (extractEntries (env.dayPage date.dateStr) false) entryNumber with
      | error e => exact ⟨[], rfl, by simp⟩
      | ok targets =>
        refine ⟨targets.map (fun entry =>
          NetCall.postAjax (ajaxURL date.dateStr w env.timestamp) (deleteForm entry)),
          rfl, ?_⟩
        intro c hc
        obtain ⟨entry, -, rfl⟩ := List.mem_map.mp hc
        exact ⟨rfl, w, deleteForm entry, rfl, rfl⟩

/-- C7 witness. -/
theorem weekID_fresh_lookup_per_call_witness :
    (WriteReport c7Env c4Date "hello" "01:00" 2).2.countP isOverviewCall = 1 ∧
    ∃ posts, (DeleteReport c7Env c4Date none).2 =
        NetCall.getDayReport c4Date.dateStr :: NetCall.getOverview :: posts ∧
      ∀ c ∈ posts, isPostCall c = true ∧
        ∃ w f, getReportWeekIDCore c7Env.overview c4Date.isoYear c4Date.isoWeek =
            Except.ok w ∧
          c = NetCall.postAjax (ajaxURL c4Date.dateStr w c7Env.timestamp) f :=
  ⟨weekID_fresh_lookup_per_call.1 c7Env c4Date "hello" "01:00" 2 (by decide),
   weekID_fresh_lookup_per_call.2 c7Env c4Date none (by decide)⟩

/-- C8: every deletion POST issued by `DeleteReport` carries as its sequence
field the negation of the targeted entry's server-assigned sequence number,
and echoes back that entry's original duration and plain-mode text. -/
theorem deleteReport_post_echoes_entry (env : Env) (date : Date)
    (entryNumber : Option Int) (u : AjaxURL) (f : AjaxForm)
    (hmem : NetCall.postAjax u f ∈ (DeleteReport env date entryNumber).2) :
    ∃ es e,
      entriesToDelete (extractEntries (env.dayPage date.dateStr) false) entryNumber =
        Except.ok es ∧
      e ∈ es ∧
      f.Seq = "-" ++ e.Seq ∧ f.Dauer = e.Duration ∧ f.Inhalt = e.Text := by
  by_cases hemp : (extractEntries (env.dayPage date.dateStr) false).isEmpty = true
  · exfalso
    simp only [DeleteReport, hemp, if_true] at hmem
    simp at hmem
  · have hemp' : (extractEntries (env.dayPage date.dateStr) false).isEmpty = false :=
      Bool.eq_false_iff.mpr hemp
    simp only [DeleteReport, hemp', Bool.false_eq_true, if_false] at hmem
    cases hw : getReportWeekIDCore env.overview date.isoYear date.isoWeek with
    | error e =>
      rw [hw] at hmem
      simp at hmem
    | ok w =>
      rw [hw] at hmem
      cases ht : entriesToDelete (extractEntries (env.dayPage date.dateStr) false) entryNumber with
      | error e =>
        rw [ht] at hmem
        simp at hmem
      | ok targets =>
        rw [ht] at hmem
        simp only [List.cons_append, List.nil_append, List.mem_cons] at hmem
        rcases hmem with h | h | h
        · exact absurd h (by simp)
        · exact absurd h (by simp)
        · obtain ⟨entry, hentry, heq⟩ := List.mem_map.mp h
          obtain ⟨-, hf⟩ := NetCall.postAjax.inj heq.symm
          exact ⟨targets, entry, rfl, hentry, by rw [hf]; rfl, by rw [hf]; rfl, by rw [hf]; rfl⟩

/-- C8 witness. -/
theorem deleteReport_post_echoes_entry_witness :
    ∃ es e,
      entriesToDelete (extractEntries (c7Env.dayPage c4Date.dateStr) false) none =
        Except.ok es ∧
      e ∈ es ∧
      (deleteForm e).Seq = "-" ++ e.Seq ∧ (deleteForm e).Dauer = e.Duration ∧
      (deleteForm e).Inhalt = e.Text := by
  have h := deleteReport_post_echoes_entry c7Env c4Date none
    (ajaxURL c4Date.dateStr "7" c7Env.timestamp)
    (deleteForm { Seq := "1", Type' := "Betrieb", Duration := "01:00", Text := "a" })
    (by decide)
  obtain ⟨es, e, hes, he, h1, h2, h3⟩ := h
  exact ⟨es, e, hes, he, by rfl, by rfl, by rfl⟩

theorem toList_String_mk (l : List Char) : (String.mk l).toList = l := rfl

theorem replaceAllAux_singleton (p : Char) (rep : List Char) (l : List Char) :
    replaceAllAux p [] rep l = l.flatMap (fun c => if c = p then rep else [c]) := by
  induction l with
  | nil => rw [replaceAllAux]; rfl
  | cons c cs ih =>
    rw [replaceAllAux]
    by_cases hc : p = c
    · subst hc
      rw [if_pos (by simp [startsWithList])]
      simp [ih]
    · rw [if_neg (by simp [startsWithList, hc])]
      have hcp : ¬ c = p := fun h => hc h.symm
      simp [hcp, ih]

set_option maxRecDepth 4096 in
theorem escByte_spec_all : ∀ b < 256,
    (escByte b).flatMap (fun c => if c = '+' then ['%', '2', '0'] else [c]) =
        escByteSpec b ∧
      ¬ '+' ∈ escByteSpec b := by decide

theorem utf8Bytes_lt (c : Char) : ∀ b ∈ utf8Bytes c, b < 256 := by
  simp only [utf8Bytes]
  repeat' split
  all_goals intro b hb
  all_goals simp only [List.mem_cons, List.not_mem_nil, or_false] at hb
  all_goals omega

theorem strBytes_lt (l : List Char) : ∀ b ∈ strBytes l, b < 256 := by
  intro b hb
  obtain ⟨c, -, hc⟩ := List.mem_flatMap.mp hb
  exact utf8Bytes_lt c b hc

theorem flatMap_escByte_spec (bs : List Nat) (h : ∀ b ∈ bs, b < 256) :
    (bs.flatMap escByte).flatMap (fun c => if c = '+' then ['%', '2', '0'] else [c]) =
        bs.flatMap escByteSpec ∧
      ¬ '+' ∈ bs.flatMap escByteSpec := by
  induction bs with
  | nil => simp
  | cons b bs ih =>
    have hb := h b (by simp)
    have ih' := ih (fun x hx => h x (List.mem_cons_of_mem b hx))
    obtain ⟨h1, h2⟩ := escByte_spec_all b hb
    constructor
    · rw [List.flatMap_cons, List.flatMap_append, h1, ih'.1, List.flatMap_cons]
    · rw [List.flatMap_cons]
      intro hc
      rcases List.mem_append.mp hc with hc | hc
      · exact h2 hc
      · exact ih'.2 hc

theorem encodeInhalt_spec (message : String) :
    encodeInhalt message =
      String.mk ((strBytes (formattedMessage message).toList).flatMap escByteSpec) ∧
    ¬ '+' ∈ (encodeInhalt message).toList := by
  have h := flatMap_escByte_spec (strBytes (formattedMessage message).toList)
    (strBytes_lt (formattedMessage message).toList)
  have heq : encodeInhalt message =
      String.mk ((strBytes (formattedMessage message).toList).flatMap escByteSpec) := by
    show String.mk (replaceAllAux '+' [] ("%20".toList)
        ((queryEscape (formattedMessage message)).toList)) = _
    rw [queryEscape, toList_String_mk, replaceAllAux_singleton]
    exact congrArg String.mk h.1
  refine ⟨heq, ?_⟩
  rw [heq, toList_String_mk]
  exact h.2

/-- C9: every write POST's payload is the newline-split, `div`-wrapped
message percent-encoded so that each byte is either passed through
(unreserved), encoded `%20` (space), or encoded `%HH` (everything else,
a literal `+` becoming `%2B`), and the payload contains no `+` character
at all. -/
theorem writeReport_inhalt_encoding (env : Env) (date : Date)
    (message timeSpent : String) (entryType : Int) (u : AjaxURL) (f : AjaxForm)
    (hmem : NetCall.postAjax u f ∈ (WriteReport env date message timeSpent entryType).2) :
    f.Inhalt =
      String.mk ((strBytes (formattedMessage message).toList).flatMap escByteSpec) ∧
    ¬ '+' ∈ f.Inhalt.toList := by
  by_cases hts : timeSpent = "00:00"
  · exfalso
    simp only [WriteReport, hts, if_pos] at hmem
    simp at hmem
  · simp only [WriteReport] at hmem
    rw [if_neg hts] at hmem
    cases hw : getReportWeekIDCore env.overview date.isoYear date.isoWeek with
    | error e =>
      rw [hw] at hmem
      simp at hmem
    | ok w =>
      rw [hw] at hmem
      simp only [List.mem_cons, List.not_mem_nil, or_false] at hmem
      rcases hmem with h | h
      · exact absurd h (by simp)
      · obtain ⟨-, hf⟩ := NetCall.postAjax.inj h
        have hinh : f.Inhalt = encodeInhalt message := by rw [hf]; rfl
        rw [hinh]
        exact encodeInhalt_spec message

/-- C9 witness. -/
theorem writeReport_inhalt_encoding_witness :
    c9Form.Inhalt =
      String.mk ((strBytes (formattedMessage "a b").toList).flatMap escByteSpec) ∧
    ¬ '+' ∈ c9Form.Inhalt.toList :=
  writeReport_inhalt_encoding c7Env c4Date "a b" "01:00" 2
    (ajaxURL c4Date.dateStr "7" c7Env.timestamp) c9Form
    (by
      have heq : (WriteReport c7Env c4Date "a b" "01:00" 2).2 =
          [NetCall.getOverview,
           NetCall.postAjax (ajaxURL c4Date.dateStr "7" c7Env.timestamp) c9Form] := by
        rfl
      rw [heq]
      simp)
